import Mathlib

/-!
# Verification of the Leistungsnachweis form application

Shallow embedding of the two source files of the repository
(`src/App.tsx` and `src/components/SignaturePad.tsx`) and proofs of the
specification's claims about them.

Conventions of the embedding:
* JavaScript numbers are modelled as rationals (`ℚ`); every numeric value the
  program manipulates is exactly representable at the inputs the claims use.
  Overflow of a parsed literal to `Infinity` (magnitude beyond the double
  range) is not modelled.
* `parseFloat` followed by the `Number.isFinite` guard — the only way the
  program ever consumes a parse result — is modelled as one function
  `parseFinite : String → Option ℚ`.
* The jsPDF document is modelled as the list of drawing commands issued to it,
  in order, together with the explicit `cursorY` bookkeeping of the source.
-/

namespace Tap

/-- `Customer` record, `src/App.tsx` lines 7-13. -/
structure Customer where
  fullName : String
  email : String
  street : String
  city : String
  phone : String
deriving DecidableEq

/-- `Order` record, `src/App.tsx` lines 15-22. -/
structure Order where
  orderNumber : String
  technician : String
  technicianTwo : String
  month : String
  year : String
  company : String
deriving DecidableEq

/-- `ServiceEntry` record, `src/App.tsx` lines 24-30. -/
structure ServiceEntry where
  id : String
  date : String
  description : String
  hours : String
  rate : String
deriving DecidableEq

/-- One entry of the `companyOptions` configuration list. -/
structure CompanyOption where
  label : String
  value : String
  address : String
deriving DecidableEq

/-- `companyOptions`, `src/App.tsx` lines 32-43. -/
def companyOptions : List CompanyOption :=
  [⟨"IT Systemhaus Alsleben GmbH", "alsleben", "Treskowallee 114, 10319 Berlin"⟩,
   ⟨"Talk & Phone GmbH", "talk-phone", "Treskowallee 114, 10319 Berlin"⟩]

/-- `paymentOptions`, `src/App.tsx` line 45. -/
def paymentOptions : List String := ["Barzahlung", "Kartenzahlung", "Rechnung"]

/-- `createEmptyService`, `src/App.tsx` lines 47-53; the id produced there by
`crypto.randomUUID()` is passed in as a parameter. -/
def createEmptyService (i : String) : ServiceEntry :=
  ⟨i, "", "", "", ""⟩

/-! ## The JavaScript number-parsing model -/

/-- The whitespace characters `parseFloat` skips at the start of its input
(space, tab, line feed, carriage return, vertical tab, form feed, no-break
space; further exotic Unicode space characters are not modelled). -/
def isStrWhiteSpace (c : Char) : Bool :=
  c = ' ' || c = '\t' || c = '\n' || c = '\r' ||
  c = Char.ofNat 11 || c = Char.ofNat 12 || c = Char.ofNat 160

/-- Numeric value of a list of decimal digit characters. -/
def digitsVal (ds : List Char) : ℕ :=
  ds.foldl (fun a c => a * 10 + (c.toNat - 48)) 0

/-- Mantissa of a JavaScript decimal literal: longest prefix of the form
`Digits`, `Digits . Digits?` or `. Digits`; returns its value and the
remaining characters, or `none` when no digit is found. -/
def parseMantissa (cs : List Char) : Option (ℚ × List Char) :=
  let intD := cs.takeWhile (·.isDigit)
  let r1 := cs.dropWhile (·.isDigit)
  match r1 with
  | '.' :: r2 =>
    let fracD := r2.takeWhile (·.isDigit)
    let r3 := r2.dropWhile (·.isDigit)
    if intD.isEmpty && fracD.isEmpty then none
    else some ((digitsVal intD : ℚ) + (digitsVal fracD : ℚ) / (10 : ℚ) ^ fracD.length, r3)
  | _ =>
    if intD.isEmpty then none else some ((digitsVal intD : ℚ), r1)

/-- Scale factor contributed by an exponent part following the mantissa; an
`e` not followed by digits contributes nothing, exactly as `parseFloat` then
keeps only the mantissa prefix. -/
def parseExpFactor (cs : List Char) : ℚ :=
  match cs with
  | 'e' :: r | 'E' :: r =>
    let es : ℤ := match r with | '+' :: _ => 1 | '-' :: _ => -1 | _ => 1
    let r2 := match r with | '+' :: t => t | '-' :: t => t | _ => r
    let ds := r2.takeWhile (·.isDigit)
    if ds.isEmpty then 1 else (10 : ℚ) ^ (es * (digitsVal ds : ℤ))
  | _ => 1

/-- `parseFloat(s)` followed by the `Number.isFinite` test, the composite the
program uses everywhere (`src/App.tsx` lines 85-86, 97-98, 219-222):
`some q` exactly when `parseFloat` yields the finite number `q`; `none` when
it yields `NaN` (no parsable prefix) or `±Infinity` (an `Infinity` literal). -/
def parseFinite (s : String) : Option ℚ :=
  let cs := s.data.dropWhile isStrWhiteSpace
  let sign : ℚ := match cs with | '-' :: _ => -1 | _ => 1
  let cs1 := match cs with | '+' :: t => t | '-' :: t => t | _ => cs
  if "Infinity".data.isPrefixOf cs1 then none
  else
    match parseMantissa cs1 with
    | none => none
    | some (m, rest) => some (sign * m * parseExpFactor rest)

/-! ## Derived totals -/

/-- `totalHours`, `src/App.tsx` lines 82-92: a fold over the service list that
adds exactly the `hours` values that parse as finite numbers. -/
def totalHours (ss : List ServiceEntry) : ℚ :=
  ss.foldl
    (fun acc s =>
      match parseFinite s.hours with
      | some h => acc + h
      | none => acc)
    0

/-- `totalAmount`, `src/App.tsx` lines 94-104: the same fold over the `rate`
fields. -/
def totalAmount (ss : List ServiceEntry) : ℚ :=
  ss.foldl
    (fun acc s =>
      match parseFinite s.rate with
      | some r => acc + r
      | none => acc)
    0

/-! ## Number formatting -/

/-- Floor of a rational, computed directly on the normalised fraction
(`Int.fdiv` rounds toward negative infinity). -/
def ratFloor (q : ℚ) : ℤ := Int.fdiv q.num (q.den : ℤ)

/-- Rounding used by `Number.prototype.toFixed`: the integer `n` minimising
the distance of `n / 10^f` to the value, the larger one on a tie — i.e.
`⌊x · 10² + 1/2⌋` for two fraction digits. -/
def round2 (q : ℚ) : ℤ := ratFloor (q * 100 + 1 / 2)

/-- Left-pad a one-digit numeral with a zero. -/
def pad2 (m : ℕ) : String := if m < 10 then "0" ++ toString m else toString m

/-- `value.toFixed(2)`: fixed two-decimal rendering, `src/App.tsx`
lines 220 and 236. -/
def toFixed2 (q : ℚ) : String :=
  let n := round2 q
  let a := n.natAbs
  (if n < 0 then "-" else "") ++ toString (a / 100) ++ "." ++ pad2 (a % 100)

/-- Group a reversed digit list in threes, separating groups with `.`. -/
def groupRev : List Char → List Char
  | a :: b :: c :: d :: rest => a :: b :: c :: '.' :: groupRev (d :: rest)
  | ds => ds

/-- Insert `.` thousands separators into a decimal numeral, de-DE style. -/
def groupThousands (s : String) : String :=
  ⟨(groupRev s.data.reverse).reverse⟩

/-- `formatCurrency`, `src/App.tsx` lines 55-56:
`value.toLocaleString('de-DE', { style: 'currency', currency: 'EUR' })` —
two decimals, comma decimal separator, dot thousands separators, and a
no-break space before the euro sign. -/
def formatCurrency (q : ℚ) : String :=
  let n := round2 q
  let a := n.natAbs
  (if n < 0 then "-" else "") ++ groupThousands (toString (a / 100)) ++ "," ++
    pad2 (a % 100) ++ " €"

/-- `Math.max` on (non-NaN) numbers. -/
def mathMax (a b : ℚ) : ℚ := if a ≤ b then b else a

/-! ## Company lookup -/

/-- `companyAddress`, `src/App.tsx` lines 106-109:
`companyOptions.find(c => c.value === order.company)?.address ?? ''`. -/
def companyAddress (v : String) : String :=
  ((companyOptions.find? fun c => c.value = v).map (·.address)).getD ""

/-- `companyLabel`, `src/App.tsx` lines 111-114. -/
def companyLabel (v : String) : String :=
  ((companyOptions.find? fun c => c.value = v).map (·.label)).getD ""

/-! ## Service-list operations -/

/-- The editable fields of a `ServiceEntry` (`keyof Omit<ServiceEntry, 'id'>`,
`src/App.tsx` line 128). -/
inductive ServiceField where
  | date
  | description
  | hours
  | rate
deriving DecidableEq

/-- `{ ...service, [field]: value }` for a non-id field. -/
def setServiceField (s : ServiceEntry) : ServiceField → String → ServiceEntry
  | .date, v => { s with date := v }
  | .description, v => { s with description := v }
  | .hours, v => { s with hours := v }
  | .rate, v => { s with rate := v }

/-- `handleServiceChange`, `src/App.tsx` lines 126-134: map over the list,
replacing the field on the entry whose id matches. -/
def handleServiceChange (i : String) (f : ServiceField) (v : String)
    (ss : List ServiceEntry) : List ServiceEntry :=
  ss.map fun s => if s.id = i then setServiceField s f v else s

/-- `addService`, `src/App.tsx` lines 136-138: append a fresh empty entry
(the fresh `crypto.randomUUID()` id is a parameter here). -/
def addService (i : String) (ss : List ServiceEntry) : List ServiceEntry :=
  ss ++ [createEmptyService i]

/-- `removeService`, `src/App.tsx` lines 140-142:
`prev.length === 1 ? prev : prev.filter(s => s.id !== id)`. -/
def removeService (i : String) (ss : List ServiceEntry) : List ServiceEntry :=
  if ss.length = 1 then ss else ss.filter fun s => s.id ≠ i

/-- The service lists reachable from the initial state
(`useState([createEmptyService()])`, `src/App.tsx` line 76) by the three list
operations; the environment guarantee that `crypto.randomUUID()` never
collides with an id already in the list is the `hfresh` hypothesis. -/
inductive ReachableServices : List ServiceEntry → Prop where
  | init (i : String) : ReachableServices [createEmptyService i]
  | add (ss : List ServiceEntry) (i : String) (h : ReachableServices ss)
      (hfresh : i ∉ ss.map ServiceEntry.id) : ReachableServices (addService i ss)
  | remove (ss : List ServiceEntry) (i : String) (h : ReachableServices ss) :
      ReachableServices (removeService i ss)
  | change (ss : List ServiceEntry) (i : String) (f : ServiceField) (v : String)
      (h : ReachableServices ss) : ReachableServices (handleServiceChange i f v ss)

/-! ## Order-field operations -/

/-- The fields of `Order` (`keyof Order`). -/
inductive OrderField where
  | orderNumber
  | technician
  | technicianTwo
  | month
  | year
  | company
deriving DecidableEq

/-- `{ ...prev, [field]: value }` on an `Order`; the update body of
`handleOrderChange`, `src/App.tsx` lines 122-124. -/
def setOrderField (o : Order) : OrderField → String → Order
  | .orderNumber, v => { o with orderNumber := v }
  | .technician, v => { o with technician := v }
  | .technicianTwo, v => { o with technicianTwo := v }
  | .month, v => { o with month := v }
  | .year, v => { o with year := v }
  | .company, v => { o with company := v }

/-! ## Application state -/

/-- An image exported from the signature canvas
(`canvas.toDataURL('image/png')`), identified by its drawn content: the list
of stroke segments painted over the background; the blank background-only
image has an empty segment list. -/
structure PngImage where
  segments : List (ℚ × ℚ × ℚ × ℚ)
deriving DecidableEq

/-- The `useState` cells of the `App` component, `src/App.tsx` lines 59-80. -/
structure AppState where
  customer : Customer
  order : Order
  paymentMethod : String
  services : List ServiceEntry
  showSecondTechnician : Bool
  companyTouched : Bool
  technicianSignature : Option PngImage
  customerSignature : Option PngImage
deriving DecidableEq

/-- `handleOrderChange`, `src/App.tsx` lines 122-124, lifted to the state. -/
def handleOrderChange (f : OrderField) (v : String) (st : AppState) : AppState :=
  { st with order := setOrderField st.order f v }

/-- `handleRemoveSecondTechnician`, `src/App.tsx` lines 277-280:
hide the second-technician field and clear its value. -/
def handleRemoveSecondTechnician (st : AppState) : AppState :=
  handleOrderChange .technicianTwo "" { st with showSecondTechnician := false }

/-! ## Signature capture surface

`src/components/SignaturePad.tsx`. The canvas raster is modelled by its drawn
content: the list of stroke segments painted since the last reset; a reset
(`clearRect` + background `fillRect`) yields the empty list, the blank
background-coloured state. The pad's `onChange` is wired to
`setTechnicianSignature` / `setCustomerSignature` (`src/App.tsx` lines
546-557), so the stored signature of the form state holder is modelled
alongside the pad. -/

/-- Mutable state of one `SignaturePad`: the `drawing` ref, the canvas
content, and the last recorded point, paired with the form state holder's
stored signature for that role. -/
structure PadState where
  drawing : Bool
  canvas : List (ℚ × ℚ × ℚ × ℚ)
  lastX : ℚ
  lastY : ℚ
  signature : Option PngImage
deriving DecidableEq

/-- The events the pad handles: the pointer events bound in
`src/components/SignaturePad.tsx` lines 106-110, the clear button
(lines 121-130) and the window-resize listener (lines 30-59). -/
inductive PadEvent where
  | pointerDown (x y : ℚ)
  | pointerMove (x y : ℚ)
  | pointerUp
  | pointerLeave
  | pointerCancel
  | clear
  | resize
deriving DecidableEq

/-- `canvas.toDataURL('image/png')` on the modelled raster. -/
def toDataURL (segs : List (ℚ × ℚ × ℚ × ℚ)) : PngImage := ⟨segs⟩

/-- One step of the pad's event handling, `src/components/SignaturePad.tsx`:
`handlePointerDown` (lines 80-88), `handlePointerMove` (lines 90-99),
`stopDrawing` (lines 101-104, bound to `pointerup`, `pointerleave` and
`pointercancel` with no guard on the `drawing` flag), `handleClear`
(lines 121-130) and `resizeCanvas` (lines 30-56, which resets the raster and
emits nothing). `stopDrawing` calls `emitChange` (lines 15-18), which hands
`toDataURL` of the current raster to `onChange`; `handleClear` hands `null`. -/
def padStep (e : PadEvent) (p : PadState) : PadState :=
  match e with
  | .pointerDown x y => { p with drawing := true, lastX := x, lastY := y }
  | .pointerMove x y =>
    if p.drawing then
      { p with canvas := p.canvas ++ [(p.lastX, p.lastY, x, y)], lastX := x, lastY := y }
    else p
  | .pointerUp | .pointerLeave | .pointerCancel =>
    { p with drawing := false, signature := some (toDataURL p.canvas) }
  | .clear => { p with canvas := [], signature := none }
  | .resize => { p with canvas := [] }

/-! ## Document renderer

`handleExportPdf`, `src/App.tsx` lines 144-271. The jsPDF document is the
ordered list of commands issued, with the `cursorY` arithmetic reproduced
exactly. -/

/-- A drawing command issued to the jsPDF document. -/
inductive PdfCmd where
  | setFont (name style : String)
  | setFontSize (size : ℚ)
  | setFillColor (r g b : ℕ)
  | textCentered (s : String) (x y : ℚ)
  | text (lines : List String) (x y : ℚ)
  | rect (x y w h : ℚ) (style : String)
  | line (x1 y1 x2 y2 : ℚ)
  | addImage (img : PngImage) (fmt : String) (x y w h : ℚ)
  | save (filename : String)
deriving DecidableEq

/-- `pdf.internal.pageSize.getWidth()` for an A4 portrait page in mm
(jsPDF reports 210 up to sub-micrometre rounding). -/
def pageWidth : ℚ := 210

/-- `marginX`, `src/App.tsx` line 152. -/
def marginX : ℚ := 20

/-- `tableWidth = pageWidth - marginX * 2`, `src/App.tsx` line 200. -/
def tableWidth : ℚ := pageWidth - marginX * 2

/-- `dateWidth`, `src/App.tsx` line 201. -/
def dateWidth : ℚ := 35

/-- `hoursWidth`, `src/App.tsx` line 202. -/
def hoursWidth : ℚ := 30

/-- `priceWidth`, `src/App.tsx` line 203. -/
def priceWidth : ℚ := 35

/-- `descWidth`, `src/App.tsx` line 204. -/
def descWidth : ℚ := tableWidth - dateWidth - hoursWidth - priceWidth

/-- `headerHeight`, `src/App.tsx` line 205. -/
def headerHeight : ℚ := 8

/-- JavaScript `s || '-'` on strings: the empty string is falsy. -/
def orDash (s : String) : String := if s = "" then "-" else s

/-- The four candidate lines of the technician block before the
`.filter(Boolean)`, `src/App.tsx` lines 162-167. -/
def technicianCandidates (o : Order) : List String :=
  [orDash o.technician,
   if o.technicianTwo ≠ "" then "+ " ++ o.technicianTwo else "",
   companyLabel o.company,
   companyAddress o.company]

/-- `technicianLines`: the candidates with empty strings filtered out. -/
def technicianLines (o : Order) : List String :=
  (technicianCandidates o).filter fun l => l ≠ ""

/-- The five candidate lines of the customer block before the
`.filter(Boolean)`, `src/App.tsx` lines 173-179. -/
def customerCandidates (c : Customer) : List String :=
  [orDash c.fullName,
   c.street,
   c.city,
   if c.phone ≠ "" then "Tel: " ++ c.phone else "",
   if c.email ≠ "" then "E-Mail: " ++ c.email else ""]

/-- `customerLines`: the candidates with empty strings filtered out. -/
def customerLines (c : Customer) : List String :=
  (customerCandidates c).filter fun l => l ≠ ""

/-- `technicianBlockHeight = (technicianLines.length + 1) * 6`,
`src/App.tsx` line 183. -/
def technicianBlockHeight (st : AppState) : ℚ :=
  (((technicianLines st.order).length : ℚ) + 1) * 6

/-- `customerBlockHeight = (customerLines.length + 1) * 6`,
`src/App.tsx` line 184. -/
def customerBlockHeight (st : AppState) : ℚ :=
  (((customerLines st.customer).length : ℚ) + 1) * 6

/-- `cursorY` when the two header blocks are rendered: the initial 25 plus
the 14 added after the title (`src/App.tsx` lines 153, 158). -/
def cursorHeaderTop : ℚ := 25 + 14

/-- `cursorY` after the header blocks:
`cursorY += Math.max(technicianBlockHeight, customerBlockHeight) + 4`,
`src/App.tsx` line 185. -/
def cursorAfterHeaderBlocks (st : AppState) : ℚ :=
  cursorHeaderTop + mathMax (technicianBlockHeight st) (customerBlockHeight st) + 4

/-- `summaryLines`, `src/App.tsx` lines 188-192. -/
def summaryLines (st : AppState) : List String :=
  ["Auftragsnummer: " ++ orDash st.order.orderNumber,
   ("Zeitraum: " ++ orDash st.order.month ++ " " ++ st.order.year).trim,
   "Zahlungsart: " ++ st.paymentMethod]

/-- `cursorY` at the top of the table header: three summary lines advance 6
each, then 6 more (`src/App.tsx` lines 193-198). -/
def cursorTableTop (st : AppState) : ℚ :=
  cursorAfterHeaderBlocks st + 6 * 3 + 6

/-- Greedy word wrap: pack words into the current line while the fit
predicate accepts the extension, else start a new line; always yields at
least one line. -/
def wrapGreedy (fits : String → Bool) (cur : String) : List String → List String
  | [] => [cur]
  | w :: ws =>
    let cand := if cur = "" then w else cur ++ " " ++ w
    if fits cand then wrapGreedy fits cand ws
    else cur :: wrapGreedy fits w ws

/-- Modelled from the spec: jsPDF's `splitTextToSize` (library code, not
under `src/`) "wraps text into the description column's width producing one
or more lines". Modelled as a greedy word wrap with a fixed per-character
advance of 2 mm standing in for the font metrics. -/
def splitTextToSize (text : String) (maxWidth : ℚ) : List String :=
  wrapGreedy (fun l => ((l.length : ℚ)) * 2 ≤ maxWidth) "" (text.splitOn " ")

/-- `hoursText`, `src/App.tsx` lines 219-220: two decimals when the entry's
hours parse as a finite number, the placeholder dash otherwise. -/
def serviceHoursText (s : ServiceEntry) : String :=
  match parseFinite s.hours with
  | some h => toFixed2 h
  | none => "-"

/-- `rateText`, `src/App.tsx` lines 221-222: de-DE currency format when the
entry's rate parses as a finite number, the placeholder dash otherwise. -/
def serviceRateText (s : ServiceEntry) : String :=
  match parseFinite s.rate with
  | some r => formatCurrency r
  | none => "-"

/-- `descLines`, `src/App.tsx` line 223. -/
def serviceDescLines (s : ServiceEntry) : List String :=
  splitTextToSize (orDash s.description) (descWidth - 6)

/-- `rowHeight = Math.max(descLines.length * 6, 8)`, `src/App.tsx`
line 224. -/
def rowHeightOf (s : ServiceEntry) : ℚ :=
  mathMax (((serviceDescLines s).length : ℚ) * 6) 8

/-- One iteration of the service-row loop, `src/App.tsx` lines 217-233:
the four cell texts, the horizontal rule at the row's bottom, and the new
cursor position. -/
def serviceRow (y : ℚ) (s : ServiceEntry) : List PdfCmd × ℚ :=
  ([PdfCmd.text [orDash s.date] (marginX + 3) (y + 5),
    PdfCmd.text (serviceDescLines s) (marginX + dateWidth + 3) (y + 5),
    PdfCmd.text [serviceHoursText s] (marginX + dateWidth + descWidth + 3) (y + 5),
    PdfCmd.text [serviceRateText s] (marginX + dateWidth + descWidth + hoursWidth + 3) (y + 5),
    PdfCmd.line marginX (y + rowHeightOf s) (marginX + tableWidth) (y + rowHeightOf s)],
   y + rowHeightOf s)

/-- The `services.forEach` loop, in list order. -/
def renderRows : List ServiceEntry → ℚ → List PdfCmd × ℚ
  | [], y => ([], y)
  | s :: rest, y =>
    ((serviceRow y s).1 ++ (renderRows rest (serviceRow y s).2).1,
     (renderRows rest (serviceRow y s).2).2)

/-- The full command sequence of `handleExportPdf` once the company check has
passed, `src/App.tsx` lines 150-270. -/
def renderPdf (st : AppState) : List PdfCmd :=
  let techL := technicianLines st.order
  let custL := customerLines st.customer
  let y2 := cursorAfterHeaderBlocks st
  let y4 := cursorTableTop st
  let body := renderRows st.services (y4 + headerHeight)
  let y6 := body.2 + 8
  let y7 := y6 + 6
  let y8 := y7 + 20
  [PdfCmd.setFont "helvetica" "bold",
   PdfCmd.setFontSize 20,
   PdfCmd.textCentered "Leistungsnachweis" (pageWidth / 2) 25,
   PdfCmd.setFontSize 11,
   PdfCmd.text ["Techniker:"] marginX cursorHeaderTop,
   PdfCmd.setFont "helvetica" "normal",
   PdfCmd.text techL marginX (cursorHeaderTop + 6),
   PdfCmd.setFont "helvetica" "bold",
   PdfCmd.text ["Kunde:"] (pageWidth / 2 + 5) cursorHeaderTop,
   PdfCmd.setFont "helvetica" "normal",
   PdfCmd.text custL (pageWidth / 2 + 5) (cursorHeaderTop + 6),
   PdfCmd.setFont "helvetica" "normal",
   PdfCmd.text [(summaryLines st).get! 0] marginX y2,
   PdfCmd.text [(summaryLines st).get! 1] marginX (y2 + 6),
   PdfCmd.text [(summaryLines st).get! 2] marginX (y2 + 6 * 2),
   PdfCmd.setFillColor 240 240 240,
   PdfCmd.rect marginX y4 tableWidth headerHeight "F",
   PdfCmd.setFont "helvetica" "bold",
   PdfCmd.text ["Datum"] (marginX + 3) (y4 + 6),
   PdfCmd.text ["Beschreibung"] (marginX + dateWidth + 3) (y4 + 6),
   PdfCmd.text ["Stunden"] (marginX + dateWidth + descWidth + 3) (y4 + 6),
   PdfCmd.text ["Preis"] (marginX + dateWidth + descWidth + hoursWidth + 3) (y4 + 6),
   PdfCmd.setFont "helvetica" "normal"] ++
  body.1 ++
  [PdfCmd.text ["Gesamtstunden: " ++ toFixed2 (totalHours st.services)] marginX y6,
   PdfCmd.text ["Gesamtpreis: " ++ formatCurrency (totalAmount st.services)] marginX y7] ++
  (match st.technicianSignature with
   | some img => [PdfCmd.addImage img "PNG" marginX (y8 - 23) 60 23]
   | none => []) ++
  (match st.customerSignature with
   | some img => [PdfCmd.addImage img "PNG" (pageWidth - marginX - 60) (y8 - 23) 60 23]
   | none => []) ++
  [PdfCmd.line marginX y8 (marginX + 60 + 20) y8,
   PdfCmd.line (pageWidth - marginX - 60 - 20) y8 (pageWidth - marginX) y8,
   PdfCmd.text ["Datum, Unterschrift Techniker"] marginX (y8 + 6),
   PdfCmd.text ["Datum, Unterschrift Kunde"] (pageWidth - marginX - 60 - 10) (y8 + 6),
   PdfCmd.save "leistungsnachweis.pdf"]

/-- `handleExportPdf`, `src/App.tsx` lines 144-148: when `order.company` is
empty (falsy) no document is produced and `companyTouched` is set; otherwise
the document is rendered and the state is untouched. -/
def handleExportPdf (st : AppState) : Option (List PdfCmd) × AppState :=
  if st.order.company = "" then (none, { st with companyTouched := true })
  else (some (renderPdf st), st)

/-! ## Concrete example states -/

/-- A customer record with every field still empty. -/
def blankCustomer : Customer := ⟨"", "", "", "", ""⟩

/-- An order with the company selected and everything else still empty. -/
def exOrder : Order := ⟨"", "", "", "", "2025", "alsleben"⟩

/-- A state ready for export: company chosen, all else at its initial value. -/
def exState : AppState :=
  ⟨blankCustomer, exOrder, "Barzahlung", [createEmptyService "s1"], false, false, none, none⟩

/-- The same state with the company selection still empty. -/
def exStateNoCompany : AppState :=
  { exState with order := { exOrder with company := "" } }

/-- The service entry with hours `"2"` and rate `"10.50"` of the spec's
worked example. -/
def svcA : ServiceEntry := ⟨"a", "", "", "2", "10.50"⟩

/-- The service entry with hours `"abc"` and rate `""` of the spec's worked
example. -/
def svcB : ServiceEntry := ⟨"b", "", "", "abc", ""⟩

/-- An idle signature pad over a blank canvas with no stored signature. -/
def idlePad : PadState := ⟨false, [], 0, 0, none⟩

/-! ## Lemmas -/

lemma foldl_parse_acc (f : ServiceEntry → String) (ss : List ServiceEntry) (a : ℚ) :
    ss.foldl
      (fun acc s =>
        match parseFinite (f s) with
        | some h => acc + h
        | none => acc)
      a = a + ((ss.filterMap fun s => parseFinite (f s)).sum) := by
  induction ss generalizing a with
  | nil => simp
  | cons s rest ih =>
    simp only [List.foldl_cons, List.filterMap_cons]
    cases h : parseFinite (f s) with
    | none => simpa using ih a
    | some q =>
      simp only [List.sum_cons]
      rw [ih (a + q)]
      ring

lemma setServiceField_id (s : ServiceEntry) (f : ServiceField) (v : String) :
    (setServiceField s f v).id = s.id := by
  cases f <;> rfl

lemma handleServiceChange_map_id (i : String) (f : ServiceField) (v : String)
    (ss : List ServiceEntry) :
    (handleServiceChange i f v ss).map ServiceEntry.id = ss.map ServiceEntry.id := by
  simp only [handleServiceChange, List.map_map]
  refine List.map_congr_left fun s _ => ?_
  by_cases h : s.id = i <;> simp [h, setServiceField_id]

lemma filter_ne_id_length (i : String) :
    ∀ ss : List ServiceEntry, (ss.map ServiceEntry.id).Nodup →
      ss.length ≤ (ss.filter fun s => s.id ≠ i).length + 1
  | [], _ => by simp
  | s :: rest, hnd => by
    have h1' : s.id ∉ rest.map ServiceEntry.id ∧ (rest.map ServiceEntry.id).Nodup := by
      simpa [List.nodup_cons] using hnd
    by_cases hs : s.id = i
    · have hfil : rest.filter (fun t => !decide (t.id = i)) = rest := by
        refine List.filter_eq_self.mpr fun t ht => ?_
        have hti : t.id ≠ i := by
          intro hti
          exact h1'.1 (by rw [hs, ← hti]; exact List.mem_map.mpr ⟨t, ht, rfl⟩)
        simp [hti]
      simp only [ne_eq, decide_not]
      simp [List.filter_cons, hs, hfil]
    · have hrec := filter_ne_id_length i rest h1'.2
      simp only [ne_eq, decide_not] at hrec ⊢
      simp [List.filter_cons, hs]
      omega

lemma removeService_length (i : String) (ss : List ServiceEntry)
    (hnd : (ss.map ServiceEntry.id).Nodup) (hlen : 1 ≤ ss.length) :
    1 ≤ (removeService i ss).length := by
  unfold removeService
  by_cases h1 : ss.length = 1
  · simp [h1]
  · simp only [h1, if_false]
    have := filter_ne_id_length i ss hnd
    omega

lemma reachable_invariant (ss : List ServiceEntry) (h : ReachableServices ss) :
    1 ≤ ss.length ∧ (ss.map ServiceEntry.id).Nodup := by
  induction h with
  | init i => simp
  | add ss i h hfresh ih =>
    refine ⟨by simp [addService], ?_⟩
    have : ((ss.map ServiceEntry.id) ++ [i]).Nodup := by
      rw [List.nodup_append]
      exact ⟨ih.2, List.nodup_singleton i, by simpa [List.disjoint_singleton] using hfresh⟩
    simpa [addService, createEmptyService] using this
  | remove ss i h ih =>
    refine ⟨removeService_length i ss ih.2 ih.1, ?_⟩
    unfold removeService
    by_cases h1 : ss.length = 1
    · simpa [h1] using ih.2
    · simp only [h1, if_false]
      exact ih.2.sublist ((List.filter_sublist ss).map ServiceEntry.id)
  | change ss i f v h ih =>
    refine ⟨?_, ?_⟩
    · simpa [handleServiceChange] using ih.1
    · rw [handleServiceChange_map_id]; exact ih.2

/-- C1: for every list of service entries, the derived total hours is the sum
of exactly the `hours` values that parse as finite numbers, and the derived
total amount is the sum of exactly the `rate` values that parse as finite
numbers; a non-parsing entry contributes nothing, and both totals are
functions of the entry list alone. -/
theorem totalHours_totalAmount_eq_sum_parseable (ss : List ServiceEntry) :
    totalHours ss = ((ss.filterMap fun s => parseFinite s.hours).sum) ∧
    totalAmount ss = ((ss.filterMap fun s => parseFinite s.rate).sum) := by
  constructor
  · simpa using foldl_parse_acc (fun s => s.hours) ss 0
  · simpa using foldl_parse_acc (fun s => s.rate) ss 0

lemma wrapGreedy_ne_nil (fits : String → Bool) :
    ∀ (ws : List String) (cur : String), wrapGreedy fits cur ws ≠ []
  | [], cur => by simp [wrapGreedy]
  | w :: ws, cur => by
    simp only [wrapGreedy]
    split
    · split
      · exact wrapGreedy_ne_nil fits ws _
      · simp
    · split
      · exact wrapGreedy_ne_nil fits ws _
      · simp

lemma splitTextToSize_ne_nil (t : String) (w : ℚ) : splitTextToSize t w ≠ [] :=
  wrapGreedy_ne_nil _ _ _

lemma renderRows_snd (ss : List ServiceEntry) :
    ∀ y : ℚ, (renderRows ss y).2 = y + ((ss.map rowHeightOf).sum) := by
  induction ss with
  | nil => intro y; simp [renderRows]
  | cons s rest ih =>
    intro y
    simp only [renderRows, List.map_cons, List.sum_cons]
    rw [ih]
    have h2 : (serviceRow y s).2 = y + rowHeightOf s := rfl
    rw [h2]
    ring

/-! ## The claims -/

/-- C2: the export operation produces a document exactly when
`order.company` is non-empty; with an empty company nothing is produced and
only the `companyTouched` flag changes, however complete the other fields
are; with a company chosen the document is rendered from the snapshot and
empty fields render through the dash placeholder (witnessed here by the
technician line). -/
theorem export_iff_company (st : AppState) :
    ((handleExportPdf st).1.isSome ↔ st.order.company ≠ "") ∧
    (st.order.company = "" →
      handleExportPdf st = (none, { st with companyTouched := true })) ∧
    (st.order.company ≠ "" → handleExportPdf st = (some (renderPdf st), st)) ∧
    (st.order.technician = "" → (technicianLines st.order).head? = some "-") := by
  refine ⟨?_, ?_, ?_, ?_⟩
  · unfold handleExportPdf
    by_cases h : st.order.company = "" <;> simp [h]
  · intro h; simp [handleExportPdf, h]
  · intro h; simp [handleExportPdf, h]
  · intro h
    simp [technicianLines, technicianCandidates, orDash, h]

theorem export_iff_company_witness :
    handleExportPdf exStateNoCompany =
      (none, { exStateNoCompany with companyTouched := true }) ∧
    handleExportPdf exState = (some (renderPdf exState), exState) ∧
    (technicianLines exState.order).head? = some "-" :=
  ⟨(export_iff_company exStateNoCompany).2.1 rfl,
   (export_iff_company exState).2.2.1 (by decide),
   (export_iff_company exState).2.2.2 rfl⟩

/-- C3: every reachable service list has length at least one, removal by id
keeps it so and is a no-op when exactly one entry remains, adding appends a
single fresh entry at the end, field updates preserve the length, and the
relative order of surviving entries is preserved by add (old list is a
prefix) and remove (result is a sublist). -/
theorem services_invariant (ss : List ServiceEntry) (h : ReachableServices ss) :
    1 ≤ ss.length ∧
    (∀ i, 1 ≤ (removeService i ss).length) ∧
    (ss.length = 1 → ∀ i, removeService i ss = ss) ∧
    (∀ i, addService i ss = ss ++ [createEmptyService i]) ∧
    (∀ i f v, (handleServiceChange i f v ss).length = ss.length) ∧
    (∀ i, (removeService i ss).Sublist ss) ∧
    (∀ i, ss.IsPrefix (addService i ss)) := by
  obtain ⟨hlen, hnd⟩ := reachable_invariant ss h
  refine ⟨hlen, fun i => removeService_length i ss hnd hlen, ?_, fun i => rfl, ?_, ?_, ?_⟩
  · intro h1 i
    simp [removeService, h1]
  · intro i f v
    simp [handleServiceChange]
  · intro i
    unfold removeService
    split
    · exact List.Sublist.refl ss
    · exact List.filter_sublist ss
  · intro i
    exact ⟨[createEmptyService i], rfl⟩

theorem services_invariant_witness :
    1 ≤ ([createEmptyService "a"] : List ServiceEntry).length ∧
    removeService "x" [createEmptyService "a"] = [createEmptyService "a"] :=
  ⟨(services_invariant _ (.init "a")).1,
   (services_invariant _ (.init "a")).2.2.1 rfl "x"⟩

/-- C4: in the rendered table, hours that do not parse as a finite number
render as the dash placeholder and parseable hours with two decimals; the
price column renders a dash or the de-DE currency format; and on the spec's
worked example (hours "2"/"abc", rates "10.50"/"") the total hours render as
"2.00", the total amount as the currency-formatted 10.50, and the second row
shows dashes in both numeric cells. -/
theorem row_rendering (s : ServiceEntry) :
    (parseFinite s.hours = none → serviceHoursText s = "-") ∧
    (∀ h, parseFinite s.hours = some h → serviceHoursText s = toFixed2 h) ∧
    (parseFinite s.rate = none → serviceRateText s = "-") ∧
    (∀ r, parseFinite s.rate = some r → serviceRateText s = formatCurrency r) ∧
    (totalHours [svcA, svcB] = 2 ∧ toFixed2 (totalHours [svcA, svcB]) = "2.00") ∧
    (totalAmount [svcA, svcB] = 21 / 2 ∧
      formatCurrency (totalAmount [svcA, svcB]) = "10,50 €") ∧
    (serviceHoursText svcA = "2.00" ∧ serviceRateText svcA = formatCurrency (21 / 2)) ∧
    (serviceHoursText svcB = "-" ∧ serviceRateText svcB = "-") := by
  refine ⟨?_, ?_, ?_, ?_, ?_, ?_, ?_, ?_⟩
  · intro h; simp [serviceHoursText, h]
  · intro q h; simp [serviceHoursText, h]
  · intro h; simp [serviceRateText, h]
  · intro q h; simp [serviceRateText, h]
  · exact ⟨by with_unfolding_all decide, by with_unfolding_all decide⟩
  · exact ⟨by with_unfolding_all decide, by with_unfolding_all decide⟩
  · exact ⟨by with_unfolding_all decide, by with_unfolding_all decide⟩
  · exact ⟨by with_unfolding_all decide, by with_unfolding_all decide⟩

theorem row_rendering_witness :
    serviceHoursText svcB = "-" ∧ serviceRateText svcB = "-" :=
  ⟨(row_rendering svcB).1 (by with_unfolding_all decide),
   (row_rendering svcB).2.2.1 (by with_unfolding_all decide)⟩

/-- C5 counterexample: on a concrete state the vertical cursor does not
advance by exactly the taller of the two header block heights — the code adds
a further 4 mm gap. -/
theorem header_advance_counterexample :
    cursorAfterHeaderBlocks exState - cursorHeaderTop ≠
      mathMax (technicianBlockHeight exState) (customerBlockHeight exState) := by
  with_unfolding_all decide

/-- C5 (amended): each header block's height is (number of non-empty lines
+ 1) × 6, and after rendering the blocks the vertical cursor advances by the
taller of the two block heights plus a fixed 4 mm gap. -/
theorem header_blocks_amended (st : AppState) :
    technicianBlockHeight st =
      (((technicianCandidates st.order).countP (fun l => l ≠ "") : ℚ) + 1) * 6 ∧
    customerBlockHeight st =
      (((customerCandidates st.customer).countP (fun l => l ≠ "") : ℚ) + 1) * 6 ∧
    cursorAfterHeaderBlocks st =
      cursorHeaderTop + mathMax (technicianBlockHeight st) (customerBlockHeight st) + 4 := by
  refine ⟨?_, ?_, rfl⟩
  · simp [technicianBlockHeight, technicianLines, List.countP_eq_length_filter]
  · simp [customerBlockHeight, customerLines, List.countP_eq_length_filter]

/-- C6: for each service entry, in list order, the description wraps to one
or more lines over the description column width, the row height is the
maximum of line count × 6 and the minimum row height 8, a horizontal rule is
drawn at the bottom of the row, and the cursor advances by exactly the row
height (cumulatively, by the sum of the row heights). -/
theorem service_row_layout (y : ℚ) (s : ServiceEntry) (ss : List ServiceEntry) :
    1 ≤ (serviceDescLines s).length ∧
    (serviceRow y s).2 = y + rowHeightOf s ∧
    rowHeightOf s = mathMax (((serviceDescLines s).length : ℚ) * 6) 8 ∧
    PdfCmd.line marginX (y + rowHeightOf s) (marginX + tableWidth) (y + rowHeightOf s)
      ∈ (serviceRow y s).1 ∧
    renderRows (s :: ss) y =
      ((serviceRow y s).1 ++ (renderRows ss (y + rowHeightOf s)).1,
        (renderRows ss (y + rowHeightOf s)).2) ∧
    (renderRows ss y).2 = y + ((ss.map rowHeightOf).sum) := by
  refine ⟨?_, rfl, rfl, ?_, rfl, renderRows_snd ss y⟩
  · exact List.length_pos.mpr (splitTextToSize_ne_nil _ _)
  · simp [serviceRow]

/-- C7: the company value "alsleben" resolves to the label
"IT Systemhaus Alsleben GmbH" and the address "Treskowallee 114, 10319
Berlin", and both strings appear among the lines of the rendered technician
block (whatever the other order fields hold), which the renderer emits as a
text command. -/
theorem company_alsleben (o : Order) :
    companyLabel "alsleben" = "IT Systemhaus Alsleben GmbH" ∧
    companyAddress "alsleben" = "Treskowallee 114, 10319 Berlin" ∧
    "IT Systemhaus Alsleben GmbH" ∈ technicianLines { o with company := "alsleben" } ∧
    "Treskowallee 114, 10319 Berlin" ∈ technicianLines { o with company := "alsleben" } ∧
    PdfCmd.text (technicianLines exState.order) marginX (cursorHeaderTop + 6)
      ∈ renderPdf exState := by
  have hl : companyLabel "alsleben" = "IT Systemhaus Alsleben GmbH" := by
    with_unfolding_all decide
  have ha : companyAddress "alsleben" = "Treskowallee 114, 10319 Berlin" := by
    with_unfolding_all decide
  refine ⟨hl, ha, ?_, ?_, ?_⟩
  · refine List.mem_filter.mpr ⟨?_, by decide⟩
    simp only [technicianCandidates, List.mem_cons]
    exact Or.inr (Or.inr (Or.inl hl.symm))
  · refine List.mem_filter.mpr ⟨?_, by decide⟩
    simp only [technicianCandidates, List.mem_cons]
    exact Or.inr (Or.inr (Or.inr (Or.inl ha.symm)))
  · simp [renderPdf]

/-- C8: the clear action resets the raster buffer to the blank
background-only state and notifies the form state holder with an absent
signature — `none`, not an image of empty pixels — so the stored signature is
absent afterwards. -/
theorem clear_resets_and_notifies_absent (p : PadState) :
    padStep .clear p = { p with canvas := [], signature := none } ∧
    (padStep .clear p).canvas = [] ∧
    (padStep .clear p).signature = none ∧
    (padStep .clear p).signature ≠ some (toDataURL []) :=
  ⟨rfl, rfl, rfl, fun h => Option.noConfusion h⟩

/-- C9: removing the second technician clears `order.technicianTwo`, hides
the field, and leaves every other field of the order and of the state
unchanged. -/
theorem remove_second_technician (st : AppState) :
    (handleRemoveSecondTechnician st).order.technicianTwo = "" ∧
    (handleRemoveSecondTechnician st).showSecondTechnician = false ∧
    (handleRemoveSecondTechnician st).order.orderNumber = st.order.orderNumber ∧
    (handleRemoveSecondTechnician st).order.technician = st.order.technician ∧
    (handleRemoveSecondTechnician st).order.month = st.order.month ∧
    (handleRemoveSecondTechnician st).order.year = st.order.year ∧
    (handleRemoveSecondTechnician st).order.company = st.order.company ∧
    (handleRemoveSecondTechnician st).customer = st.customer ∧
    (handleRemoveSecondTechnician st).services = st.services ∧
    (handleRemoveSecondTechnician st).paymentMethod = st.paymentMethod ∧
    (handleRemoveSecondTechnician st).companyTouched = st.companyTouched :=
  ⟨rfl, rfl, rfl, rfl, rfl, rfl, rfl, rfl, rfl, rfl, rfl⟩

/-- C10: every pointer-up, pointer-leave or pointer-cancel event exports the
current raster to the form state holder — with no guard on the drawing flag,
so it fires on an idle surface too — and over a freshly cleared surface it
replaces the absent signature with the blank background-only image. -/
theorem stop_drawing_always_exports (p : PadState) (e : PadEvent)
    (h : e = PadEvent.pointerUp ∨ e = PadEvent.pointerLeave ∨ e = PadEvent.pointerCancel) :
    (padStep e p).signature = some (toDataURL p.canvas) ∧
    (padStep e p).drawing = false ∧
    (padStep .clear p).signature = none ∧
    (padStep e (padStep .clear p)).signature = some (toDataURL []) := by
  rcases h with h | h | h <;> subst h <;> exact ⟨rfl, rfl, rfl, rfl⟩

theorem stop_drawing_always_exports_witness :
    (padStep .pointerUp idlePad).signature = some (toDataURL idlePad.canvas) ∧
    (padStep .pointerUp (padStep .clear idlePad)).signature = some (toDataURL []) :=
  ⟨(stop_drawing_always_exports idlePad .pointerUp (Or.inl rfl)).1,
   (stop_drawing_always_exports idlePad .pointerUp (Or.inl rfl)).2.2.2⟩

end Tap
